import Mathlib

/-!
Verification of the analytical core of the conflict-forecast reporting
pipeline (classifiers, percentile/rank computation, cohort selection,
spatial adjacency, trend estimation).

Python floats are modelled as rationals (every numeric literal in the
relevant code is exactly representable, and the code performs only
comparisons, field arithmetic and absolute values).  Python strings are
modelled as Lean strings.  pandas tables are modelled as lists of rows in
table order; row filters keep table order like their pandas counterparts.
A pandas mean over an empty selection yields NaN (not an exception), which
is modelled by `Option ℚ` with `none` for NaN.  Python `list.sort` is a
stable sort and is modelled by `List.insertionSort`, which inserts equal
keys in input order.  pandas `sort_values` with its default
`kind='quicksort'` guarantees only the ordering by the key, not the
relative order of tied rows, so it is specified relationally: any
key-ordered permutation is an admissible result
(`admissible_distance_sort`), and `List.insertionSort` serves as one
concrete admissible run for the executable path.
-/

/-- Embedding of `DataProvider.categorize_probability`
(pdf_generator_03/data_provider.py, lines 149-157): chained
if/elif on `prob` with inclusive upper bounds. -/
def categorize_probability (prob : ℚ) : String :=
  if prob ≤ 0.01 then "Near-certain no conflict"
  else if prob ≤ 0.50 then "Improbable conflict"
  else if prob ≤ 0.99 then "Probable conflict"
  else "Near-certain conflict"

/-- Embedding of `categorize_prob_single` (utils.py, lines 6-10):
same labels, but the two middle comparisons are strict (`p < 0.5`,
`p < 0.99`) rather than inclusive. -/
def categorize_prob_single (p : ℚ) : String :=
  if p ≤ 0.01 then "Near-certain no conflict"
  else if p < 0.5 then "Improbable conflict"
  else if p < 0.99 then "Probable conflict"
  else "Near-certain conflict"

/-- Embedding of `DataProvider.categorize_intensity`
(pdf_generator_03/data_provider.py, lines 159-171). -/
def categorize_intensity (predicted : ℚ) : String :=
  if predicted = 0 then "0"
  else if predicted ≤ 10 then "1-10"
  else if predicted ≤ 100 then "11-100"
  else if predicted ≤ 1000 then "101-1,000"
  else if predicted ≤ 10000 then "1,001-10,000"
  else "10,001+"

/-- Embedding of `pandas.Series.mean`: the arithmetic mean of the series,
or NaN (modelled as `none`) when the series is empty.  pandas raises no
exception on an empty mean; it silently returns NaN. -/
def series_mean (xs : List ℚ) : Option ℚ :=
  if xs.length = 0 then none else some (xs.sum / xs.length)

/-- Embedding of the inline percentile computation in
`DataExtractor.extract_template_data` (abtest_ptb/data_extractor.py,
lines 35-36): `(population <= value).mean() * 100`.  The boolean mask is
modelled as a 0/1 indicator list, whose mean is the fraction of
population members that are `≤ value`. -/
def le_mean_percentile (value : ℚ) (population : List ℚ) : Option ℚ :=
  (series_mean (population.map (fun x => if x ≤ value then (1 : ℚ) else 0))).map
    (fun m => m * 100)

/-- Modelled from the scipy documentation: `scipy.stats.percentileofscore`
with its default `kind` argument, which is `rank`.  With
`left = #{x ∈ a | x < score}` and `right = #{x ∈ a | x ≤ score}` the rank
kind returns `(left + right + [left < right]) * 50 / len(a)` (the mean of
the strict and weak percentile when the score occurs in `a`).  scipy is an
external library, so this call is modelled from its documented semantics;
an empty `a` is modelled as `none` (no numeric result). -/
def percentileofscore (a : List ℚ) (score : ℚ) : Option ℚ :=
  if a.length = 0 then none
  else
    let left := (a.filter (fun x => x < score)).length
    let right := (a.filter (fun x => x ≤ score)).length
    let plus1 : ℕ := if left < right then 1 else 0
    some (((left : ℚ) + (right : ℚ) + (plus1 : ℚ)) * 50 / (a.length : ℚ))

/-- Embedding of `CovariateDistributionModule._get_percentile`
(pdf_generator_03/covariate_distribution_module.py, lines 34-35):
`return stats.percentileofscore(distribution, value)`. -/
def get_percentile (value : ℚ) (distribution : List ℚ) : Option ℚ :=
  percentileofscore distribution value

/-- One row of the monthly forecast table, with the columns the cohort
code reads: `isoab` (country identifier, modelled as a natural number),
`outcome_p` (probability) and `predicted` (predicted fatalities). -/
structure FUnit where
  isoab : ℕ
  outcome_p : ℚ
  predicted : ℚ

/-- Embedding of `DataProvider.get_cohort_countries`
(pdf_generator_03/data_provider.py, lines 187-201): the `isoab` values of
the month rows whose categorized probability and intensity equal the
requested pair, in table order. -/
def get_cohort_countries (month_data : List FUnit) (risk_category intensity_category : String) :
    List ℕ :=
  (month_data.filter (fun u =>
    categorize_probability u.outcome_p = risk_category ∧
    categorize_intensity u.predicted = intensity_category)).map FUnit.isoab

/-- Embedding of `example_cohorts = [c for c in cohort_countries if c != country_code][:3]`
(abtest_ptb/data_extractor.py, line 42): the natural cohort, capped at 3. -/
def natural_cohort (month_data : List FUnit) (u : FUnit) : List ℕ :=
  ((get_cohort_countries month_data (categorize_probability u.outcome_p)
      (categorize_intensity u.predicted)).filter (fun c => c ≠ u.isoab)).take 3

/-- Embedding of `all_countries = month_data[month_data.isoab != country_code]`
(abtest_ptb/data_extractor.py, line 47).  Rows are paired with their table
position so that the stable-sort tie-break can be stated. -/
def all_countries (month_data : List FUnit) (u : FUnit) : List (ℕ × FUnit) :=
  month_data.enum.filter (fun p => p.2.isoab ≠ u.isoab)

/-- One concrete admissible run of `all_countries.sort_values(distance)`
where `distance = abs(predicted - target_predicted)`
(abtest_ptb/data_extractor.py, lines 48-49), used by the executable
model.  The source's default quicksort guarantees only the ordering by
distance, not the order of tied rows; the full guarantee is
`admissible_distance_sort`, and the theorems about the backfill are
stated over all admissible results. -/
def sorted_by_distance (month_data : List FUnit) (u : FUnit) : List (ℕ × FUnit) :=
  (all_countries month_data u).insertionSort
    (fun a b => |a.2.predicted - u.predicted| ≤ |b.2.predicted - u.predicted|)

/-- Embedding of `remaining = all_countries[~all_countries.isoab.isin(example_cohorts)]`
(abtest_ptb/data_extractor.py, line 51), applied after the sort as in the
source. -/
def remaining_after_cohort (month_data : List FUnit) (u : FUnit) : List (ℕ × FUnit) :=
  (sorted_by_distance month_data u).filter (fun p => p.2.isoab ∉ natural_cohort month_data u)

/-- Embedding of the cohort-selection block of
`DataExtractor.extract_template_data` (abtest_ptb/data_extractor.py,
lines 42-58): returns the selected cohort (list of `isoab`) and the
`similarity_label`.  When the natural cohort has fewer than 3 members the
label is `"most similar"` if it is non-empty and `"generally similar"` if
it is empty, and the shortfall is backfilled from `remaining` in sorted
order (`head(needed)`). -/
def extract_cohort (month_data : List FUnit) (u : FUnit) : List ℕ × String :=
  let example_cohorts := natural_cohort month_data u
  if example_cohorts.length < 3 then
    let similarity := if example_cohorts.isEmpty then "generally similar" else "most similar"
    let fallback := ((remaining_after_cohort month_data u).map (fun p => p.2.isoab)).take
      (3 - example_cohorts.length)
    (example_cohorts ++ fallback, similarity)
  else
    (example_cohorts, "most similar")

/-- Cohort list returned by `extract_cohort`. -/
def cohort_result (month_data : List FUnit) (u : FUnit) : List ℕ :=
  (extract_cohort month_data u).1

/-- Similarity label returned by `extract_cohort`. -/
def similarity_label (month_data : List FUnit) (u : FUnit) : String :=
  (extract_cohort month_data u).2

/-- Specification of what `sort_values('distance')` guarantees for the
backfill pool (abtest_ptb/data_extractor.py, line 49): the result is a
permutation of the pool ordered by ascending distance.  The default sort
kind is quicksort, which pandas does not guarantee to be stable, so the
relative order of rows with equal distance is implementation-defined:
every list satisfying this predicate is an admissible result. -/
def admissible_distance_sort (month_data : List FUnit) (u : FUnit)
    (s : List (ℕ × FUnit)) : Prop :=
  s.Perm (all_countries month_data u) ∧
  s.Pairwise (fun a b => |a.2.predicted - u.predicted| ≤ |b.2.predicted - u.predicted|)

/-- The cohort-selection block of `DataExtractor.extract_template_data`
(abtest_ptb/data_extractor.py, lines 42-58) as a function of the sorted
pool `s` delivered by `sort_values`, so that behavior can be stated for
every admissible sort result.  `extract_cohort` is its instance at the
concrete run `sorted_by_distance`. -/
def extract_cohort_from (month_data : List FUnit) (u : FUnit) (s : List (ℕ × FUnit)) :
    List ℕ × String :=
  let example_cohorts := natural_cohort month_data u
  if example_cohorts.length < 3 then
    let similarity := if example_cohorts.isEmpty then "generally similar" else "most similar"
    let fallback := ((s.filter (fun p => p.2.isoab ∉ natural_cohort month_data u)).map
      (fun p => p.2.isoab)).take (3 - example_cohorts.length)
    (example_cohorts ++ fallback, similarity)
  else
    (example_cohorts, "most similar")

/-- Embedding of `GridBLUFDataExtractor._get_country_rank`
(abtest_vito/grid_bluf_data_extractor.py, lines 202-235), from the point
where `country_grids` (pairs of grid id and forecast value) has been
collected: sort descending by value (Python `list.sort` with
`reverse=True` is stable), 1-based rank of the first entry whose id
matches (0 when absent), `higher = rank - 1`, `lower = total - rank`.
Result tuple is `(rank, total, higher, lower)`. -/
def rank_within (country_grids : List (ℤ × ℚ)) (priogrid_gid : ℤ) : ℤ × ℤ × ℤ × ℤ :=
  if country_grids.isEmpty then (0, 0, 0, 0)
  else
    let sorted := country_grids.insertionSort (fun a b => b.2 ≤ a.2)
    let rank : ℤ :=
      match sorted.findIdx? (fun p => p.1 = priogrid_gid) with
      | some i => (i : ℤ) + 1
      | none => 0
    let total : ℤ := country_grids.length
    (rank, total, rank - 1, total - rank)

/-- Descending stable sort used by `rank_within` (named so that theorems
can speak about it). -/
def rank_sorted (country_grids : List (ℤ × ℚ)) : List (ℤ × ℚ) :=
  country_grids.insertionSort (fun a b => b.2 ≤ a.2)

/-- Embedding of `np.polyfit(range(n), ys, 1)[0]`: the ordinary
least-squares slope of `ys` against the index `0, 1, …, n-1`, i.e.
`(n·Σxy − Σx·Σy) / (n·Σx² − (Σx)²)`.  Callers only invoke it with at
least 3 points, where the denominator is positive (rational division by
zero would yield 0). -/
def polyfit_slope (ys : List ℚ) : ℚ :=
  let n : ℚ := ys.length
  let xs : List ℚ := (List.range ys.length).map (fun i => (i : ℚ))
  (n * ((xs.zip ys).map (fun p => p.1 * p.2)).sum - xs.sum * ys.sum) /
    (n * (xs.map (fun x => x * x)).sum - xs.sum * xs.sum)

/-- Embedding of the trend-slope block of
`DataExtractor.extract_template_data` (abtest_ptb/data_extractor.py,
lines 66-69): `trend_slope = 0`, replaced by the least-squares slope when
the series has at least 3 points. -/
def trend_slope (historical_points : List ℚ) : ℚ :=
  if 3 ≤ historical_points.length then polyfit_slope historical_points else 0

/-- Embedding of `DataExtractor._get_trend_description`
(abtest_ptb/data_extractor.py, lines 149-156).  The Python f-string
rendering of the slope to one decimal place is modelled by `toString` on
the rational; no theorem depends on those digits. -/
def get_trend_description (slope : ℚ) : String :=
  if 5 < |slope| then
    if 0 < slope then "increasing (slope: +" ++ toString slope ++ " fatalities/month)"
    else "decreasing (slope: " ++ toString slope ++ " fatalities/month)"
  else "relatively stable"

/-- Embedding of `np.mean` (callers guard against empty input; rational
division by zero would yield 0 on the empty list). -/
def np_mean (xs : List ℚ) : ℚ := xs.sum / xs.length

/-- Embedding of `GridBLUFDataExtractor._get_historical_context`
(abtest_vito/grid_bluf_data_extractor.py, lines 113-151), from the point
where the grid's fatality series `values` (sorted by month) has been
extracted.  Returns `(avg, description)`: empty series map to
`(0, "no historical data")`, series with fewer than 6 points to
`(avg, "limited data")`; otherwise a trend word is derived from the
least-squares slope of the last 12 values only when the series has at
least 12 points (shorter series are called "stable" without computing a
slope), and a level word from the mean of the last 12 values. -/
def get_historical_context (values : List ℚ) : ℚ × String :=
  if values.isEmpty then (0, "no historical data")
  else
    let avg := np_mean values
    if values.length < 6 then (avg, "limited data")
    else
      let recent := values.drop (values.length - 12)
      let recent_avg := np_mean recent
      let trend :=
        if 12 ≤ values.length then
          let s := polyfit_slope recent
          if |s| < 1 then "stable"
          else if 0 < s then "increasing"
          else "decreasing"
        else "stable"
      let level :=
        if 100 < recent_avg then "high"
        else if 10 < recent_avg then "moderate"
        else if 0 < recent_avg then "low"
        else "minimal"
      (avg, level ++ " and " ++ trend)

/-- One row of the PRIO-grid shapefile with the columns the spatial code
reads: `gid` and the centroid coordinates `xcoord`, `ycoord`.  The polygon
geometry itself stays behind the injected `touches` predicate. -/
structure GridCell where
  gid : ℤ
  xcoord : ℚ
  ycoord : ℚ

/-- Lookup of the first shapefile row with a given gid, as performed by
`self.gdf[self.gdf.gid == g].iloc[0]`; `none` models the empty selection
(on which `.iloc[0]` would raise an IndexError). -/
def lookup_cell (gdf : List GridCell) (gid : ℤ) : Option GridCell :=
  gdf.find? (fun c => c.gid = gid)

/-- Embedding of `GridSpatialModule._get_neighbors`
(vito_01/grid_spatial_module.py, lines 20-30): empty list when the focal
gid is absent from the mesh, otherwise the gids of all rows whose
geometry touches the focal geometry.  The geometric `touches` test is an
injected predicate on gids. -/
def get_neighbors (gdf : List GridCell) (touches : ℤ → ℤ → Bool) (priogrid_gid : ℤ) :
    List ℤ :=
  match lookup_cell gdf priogrid_gid with
  | none => []
  | some _ => (gdf.filter (fun c => touches c.gid priogrid_gid)).map GridCell.gid

/-- Embedding of `GridSpatialModule._get_geographic_position`
(vito_01/grid_spatial_module.py, lines 32-57): the north/south letter from
the sign of the y difference concatenated with the east/west letter from
the sign of the x difference; both-zero differences yield the empty
string. -/
def get_geographic_position (focal neighbor : GridCell) : String :=
  (if focal.ycoord < neighbor.ycoord then "N"
   else if neighbor.ycoord < focal.ycoord then "S"
   else "") ++
  (if focal.xcoord < neighbor.xcoord then "E"
   else if neighbor.xcoord < focal.xcoord then "W"
   else "")

/-- Python dict assignment `d[k] = v` on an insertion-ordered association
list: overwrite in place when the key is present, append otherwise. -/
def dict_insert (m : List (String × ℤ)) (k : String) (v : ℤ) : List (String × ℤ) :=
  if m.any (fun e => e.1 = k) then m.map (fun e => if e.1 = k then (k, v) else e)
  else m ++ [(k, v)]

/-- Embedding of the adjacency-assembly part of
`GridSpatialModule.generate_content` (vito_01/grid_spatial_module.py,
lines 88-120): `None` (here `Except.ok none`) when the neighbor count is
not exactly 8, otherwise the `grid_data` dict mapping `"CENTER"` and each
neighbor's compass label to a gid, built by plain dict assignment in
neighbor order.  A failed row lookup inside the loop would raise an
IndexError in the source and is modelled as `Except.error`; the figure
rendering that follows is out of scope. -/
def generate_content (gdf : List GridCell) (touches : ℤ → ℤ → Bool) (priogrid_gid : ℤ) :
    Except String (Option (List (String × ℤ))) :=
  let neighbor_gids := get_neighbors gdf touches priogrid_gid
  if neighbor_gids.length ≠ 8 then .ok none
  else
    match lookup_cell gdf priogrid_gid with
    | none => .error "single positional indexer is out-of-bounds"
    | some focal =>
      match neighbor_gids.foldlM (fun m ngid =>
          match lookup_cell gdf ngid with
          | none => none
          | some ncell => some (dict_insert m (get_geographic_position focal ncell) ngid))
          [("CENTER", priogrid_gid)] with
      | none => .error "single positional indexer is out-of-bounds"
      | some m => .ok (some m)

/-- Query unit shared by the concrete cohort scenarios: probability 0.6
("Probable conflict"), predicted intensity 5 ("1-10"). -/
def uQuery : FUnit := ⟨0, 0.6, 5⟩

/-- Population in which exactly one other row shares the query unit's
category pair (row 1) and two rows (2 and 3) lie in a different pair at
equal intensity distance 4 from the query. -/
def mdOneNatural : List FUnit :=
  [⟨0, 0.6, 5⟩, ⟨1, 0.7, 8⟩, ⟨2, 0.005, 1⟩, ⟨3, 0.005, 9⟩]

/-- Population in which four other rows share the query unit's category
pair. -/
def mdManyNatural : List FUnit :=
  [⟨0, 0.6, 5⟩, ⟨1, 0.6, 5⟩, ⟨2, 0.7, 7⟩, ⟨3, 0.8, 9⟩, ⟨4, 0.9, 3⟩]

/-- An admissible result of the unstable distance sort on
`mdOneNatural`: rows 2 and 3 are equidistant from the query unit and
appear here in the opposite of population order. -/
def sBad : List (ℕ × FUnit) :=
  [(1, ⟨1, 0.7, 8⟩), (3, ⟨3, 0.005, 9⟩), (2, ⟨2, 0.005, 1⟩)]

/-- Five-unit rank partition with forecast values 100, 80, 50, 20, 0. -/
def rankExample : List (ℤ × ℚ) :=
  [(1, 100), (2, 80), (3, 50), (4, 20), (5, 0)]

/-- Two-unit rank partition used to refute `higher + rank = total`. -/
def rankPair : List (ℤ × ℚ) := [(1, 100), (2, 80)]

/-- Mesh of a focal cell (gid 0) with eight touching cells, two of which
(gids 1 and 2) lie due north of the focal centroid and therefore map to
the same compass label "N". -/
def meshCollide : List GridCell :=
  [⟨0, 0, 0⟩, ⟨1, 0, 1⟩, ⟨2, 0, 2⟩, ⟨3, 1, 1⟩, ⟨4, 1, 0⟩,
   ⟨5, 1, -1⟩, ⟨6, 0, -1⟩, ⟨7, -1, -1⟩, ⟨8, -1, 0⟩]

/-- Touch relation of `meshCollide`: every non-focal cell touches the
focal cell. -/
def touchCollide : ℤ → ℤ → Bool := fun a b => a != 0 && b == 0

/-- Mesh consisting of the focal cell alone (a cell with no touching
neighbors). -/
def meshSingle : List GridCell := [⟨0, 0, 0⟩]

instance : IsTotal (ℤ × ℚ) (fun a b => b.2 ≤ a.2) :=
  ⟨fun a b => le_total b.2 a.2⟩

instance : IsTrans (ℤ × ℚ) (fun a b => b.2 ≤ a.2) :=
  ⟨fun _ _ _ h1 h2 => le_trans h2 h1⟩

/-- Claim C1 (corrected claim): both duplicated risk classifiers are total
on [0,1] and return exactly one of the four category labels, and
`categorize_probability` has exactly the declared bands (upper bounds
inclusive); but `categorize_prob_single` makes the upper bounds of the two
middle bands strict, so it assigns p = 0.5 to "Probable conflict" and
p = 0.99 to "Near-certain conflict". -/
theorem C1_bands (p : ℚ) (h0 : 0 ≤ p) (h1 : p ≤ 1) :
    (categorize_probability p = "Near-certain no conflict" ∨
      categorize_probability p = "Improbable conflict" ∨
      categorize_probability p = "Probable conflict" ∨
      categorize_probability p = "Near-certain conflict") ∧
    (categorize_prob_single p = "Near-certain no conflict" ∨
      categorize_prob_single p = "Improbable conflict" ∨
      categorize_prob_single p = "Probable conflict" ∨
      categorize_prob_single p = "Near-certain conflict") ∧
    (categorize_probability p = "Near-certain no conflict" ↔ p ≤ 0.01) ∧
    (categorize_probability p = "Improbable conflict" ↔ 0.01 < p ∧ p ≤ 0.50) ∧
    (categorize_probability p = "Probable conflict" ↔ 0.50 < p ∧ p ≤ 0.99) ∧
    (categorize_probability p = "Near-certain conflict" ↔ 0.99 < p) ∧
    (categorize_prob_single p = "Near-certain no conflict" ↔ p ≤ 0.01) ∧
    (categorize_prob_single p = "Improbable conflict" ↔ 0.01 < p ∧ p < 0.5) ∧
    (categorize_prob_single p = "Probable conflict" ↔ 0.5 ≤ p ∧ p < 0.99) ∧
    (categorize_prob_single p = "Near-certain conflict" ↔ 0.99 ≤ p) := by
  unfold categorize_probability categorize_prob_single
  split_ifs <;>
    refine ⟨?_, ?_, ?_, ?_, ?_, ?_, ?_, ?_, ?_, ?_⟩ <;>
    simp_all <;>
    first
      | linarith
      | (exfalso; linarith)
      | (constructor <;> linarith)
      | (intro hh; linarith)
      | (intro hh; exfalso; linarith)
      | (rintro ⟨hh1, hh2⟩; linarith)
      | (constructor <;> intro hh <;> linarith)

/-- Claim C1 counterexample: the two duplicated classifiers disagree at
the declared band boundaries 0.5 and 0.99, where `categorize_prob_single`
does not return the category the claim declares. -/
theorem C1_counterexample :
    categorize_prob_single 0.5 = "Probable conflict" ∧
    categorize_probability 0.5 = "Improbable conflict" ∧
    categorize_prob_single 0.99 = "Near-certain conflict" ∧
    categorize_probability 0.99 = "Probable conflict" ∧
    ("Probable conflict" : String) ≠ "Improbable conflict" ∧
    ("Near-certain conflict" : String) ≠ "Probable conflict" := by
  refine ⟨?_, ?_, ?_, ?_, by decide, by decide⟩ <;>
    norm_num [categorize_prob_single, categorize_probability]

/-- Claim C1 witness: the amended band theorem applied at p = 0.25. -/
theorem C1_witness :
    (0 : ℚ) ≤ 0.25 ∧ (0.25 : ℚ) ≤ 1 ∧
    (categorize_probability 0.25 = "Improbable conflict" ↔
      (0.01 : ℚ) < 0.25 ∧ (0.25 : ℚ) ≤ 0.50) := by
  exact ⟨by norm_num, by norm_num,
    (C1_bands 0.25 (by norm_num) (by norm_num)).2.2.2.1⟩

/-- Claim C6 (corrected claim): the classifiers never reject out-of-domain
input; a probability below 0 falls silently into the lowest band, a
probability above 1 into the highest band, and a negative intensity into
the "1-10" band. -/
theorem C6_total_no_reject (p q x : ℚ) (hp : p < 0) (hq : 1 < q) (hx : x < 0) :
    categorize_probability p = "Near-certain no conflict" ∧
    categorize_probability q = "Near-certain conflict" ∧
    categorize_intensity x = "1-10" := by
  unfold categorize_probability categorize_intensity
  refine ⟨?_, ?_, ?_⟩ <;> split_ifs <;> first | rfl | (exfalso; linarith)

/-- Claim C6 counterexample: out-of-domain inputs produce category labels
instead of an error. -/
theorem C6_counterexample :
    categorize_probability (-1) = "Near-certain no conflict" ∧
    categorize_probability 2 = "Near-certain conflict" ∧
    categorize_intensity (-3) = "1-10" := by
  norm_num [categorize_probability, categorize_intensity]

/-- Claim C6 witness: the amended theorem applied at p = -1, q = 2,
x = -3. -/
theorem C6_witness :
    ((-1 : ℚ) < 0 ∧ (1 : ℚ) < 2 ∧ (-3 : ℚ) < 0) ∧
    categorize_probability (-1) = "Near-certain no conflict" := by
  exact ⟨⟨by norm_num, by norm_num, by norm_num⟩,
    (C6_total_no_reject (-1) 2 (-3) (by norm_num) (by norm_num) (by norm_num)).1⟩

/-- Claim C7 (corrected claim): percentile against an empty population
does not raise an error; the pandas mean of the empty mask is NaN
(modelled `none`), which propagates silently, so no rational value (in
particular neither 0 nor 100) is returned. -/
theorem C7_nan_on_empty (v : ℚ) : le_mean_percentile v [] = none := by
  simp [le_mean_percentile, series_mean]

/-- Claim C7 counterexample: at value 1 and the empty population the
percentile evaluates to NaN (modelled `none`) rather than failing with an
error. -/
theorem C7_counterexample :
    le_mean_percentile 1 [] = none ∧ series_mean [] = none := by
  constructor <;> simp [le_mean_percentile, series_mean]

/-- Claim C9 (corrected claim): in the abtest_ptb extractor the trend
slope is the index-based least-squares slope for series with at least 3
points and 0 otherwise, and the 6-point series [0,0,0,12,24,36] yields
the strictly positive slope 264/35; but no "insufficient" marker
accompanies slope 0 (the description of a short series is the same
"relatively stable" used for any small-slope series), and the abtest_vito
variant computes no least-squares slope at 3 points: it labels every
non-empty series shorter than 6 points "limited data" and derives a trend
word only for series of at least 12 points. -/
theorem C9_trend (pts short vs : List ℚ) (h3 : 3 ≤ pts.length)
    (hshort : short.length < 3) (hvs : vs ≠ []) (hvs6 : vs.length < 6) :
    trend_slope pts = polyfit_slope pts ∧
    trend_slope short = 0 ∧
    trend_slope [0, 0, 0, 12, 24, 36] = 264 / 35 ∧
    (0 : ℚ) < 264 / 35 ∧
    get_trend_description (trend_slope short) = "relatively stable" ∧
    get_historical_context vs = (np_mean vs, "limited data") := by
  have hrange : List.range ([0, 0, 0, 12, 24, 36] : List ℚ).length = [0, 1, 2, 3, 4, 5] := rfl
  refine ⟨by rw [trend_slope, if_pos h3], by rw [trend_slope, if_neg (by omega)], ?_, by norm_num,
    ?_, ?_⟩
  · rw [trend_slope, if_pos (by norm_num), polyfit_slope]
    rw [hrange]
    norm_num
  · rw [trend_slope, if_neg (by omega), get_trend_description, if_neg (by norm_num)]
  · rw [get_historical_context, if_neg (by simpa using hvs)]
    simp only [if_pos hvs6]

/-- Claim C9 counterexample: a 3-point series given to the abtest_vito
trend summarizer yields the "limited data" marker and no slope (its
least-squares slope would be 12), and in the abtest_ptb extractor a
2-point series yields slope 0 with the description "relatively stable" —
indistinguishable from a sufficient 3-point flat series, i.e. no
"insufficient" marker. -/
theorem C9_counterexample :
    get_historical_context [0, 12, 24] = (12, "limited data") ∧
    polyfit_slope [0, 12, 24] = 12 ∧
    trend_slope [5, 5] = 0 ∧
    get_trend_description (trend_slope [5, 5]) = "relatively stable" ∧
    get_trend_description (trend_slope [5, 5, 5]) =
      get_trend_description (trend_slope [5, 5]) := by
  have hr3 : List.range ([0, 12, 24] : List ℚ).length = [0, 1, 2] := rfl
  have hr3b : List.range ([5, 5, 5] : List ℚ).length = [0, 1, 2] := rfl
  have h2 : trend_slope [5, 5] = 0 := by rw [trend_slope, if_neg (by norm_num)]
  have h3 : trend_slope [5, 5, 5] = 0 := by
    rw [trend_slope, if_pos (by norm_num), polyfit_slope, hr3b]
    norm_num
  refine ⟨?_, ?_, h2, ?_, ?_⟩
  · rw [get_historical_context, if_neg (by norm_num)]
    norm_num [np_mean]
  · rw [polyfit_slope, hr3]
    norm_num
  · rw [h2, get_trend_description, if_neg (by norm_num)]
  · rw [h2, h3]

/-- Claim C9 witness: the amended theorem applied to the 6-point series
[0,0,0,12,24,36], the 2-point series [5,5] and the 1-point series [1]. -/
theorem C9_witness :
    (3 ≤ ([0, 0, 0, 12, 24, 36] : List ℚ).length ∧
      ([5, 5] : List ℚ).length < 3 ∧ ([1] : List ℚ) ≠ [] ∧ ([1] : List ℚ).length < 6) ∧
    trend_slope [0, 0, 0, 12, 24, 36] = polyfit_slope [0, 0, 0, 12, 24, 36] ∧
    get_historical_context [1] = (np_mean [1], "limited data") := by
  have h := C9_trend [0, 0, 0, 12, 24, 36] [5, 5] [1]
    (by norm_num) (by norm_num) (by simp) (by norm_num)
  exact ⟨⟨by norm_num, by norm_num, by simp, by norm_num⟩, h.1, h.2.2.2.2.2⟩

/-- Sum of the 0/1 indicator of `x ≤ v` equals the number of population
members that are `≤ v`. -/
theorem indicator_sum_eq (v : ℚ) (pop : List ℚ) :
    (pop.map (fun x => if x ≤ v then (1 : ℚ) else 0)).sum =
      ((pop.filter (fun x => x ≤ v)).length : ℚ) := by
  induction pop with
  | nil => simp
  | cons x t ih =>
    by_cases h : x ≤ v
    · simp [List.filter_cons, h, ih]
      ring
    · simp [List.filter_cons, h, ih]

/-- Counting members `≤ v` splits into members `< v` plus occurrences of
`v` itself. -/
theorem filter_le_length_split (v : ℚ) (pop : List ℚ) :
    (pop.filter (fun x => x ≤ v)).length =
      (pop.filter (fun x => x < v)).length + pop.count v := by
  induction pop with
  | nil => simp
  | cons x t ih =>
    rcases lt_trichotomy x v with h | h | h
    · simp [List.filter_cons, List.count_cons, h, le_of_lt h, ne_of_lt h,
        (ne_of_lt h).symm, ih] <;> omega
    · subst h
      simp [List.filter_cons, List.count_cons, le_refl, lt_irrefl, ih] <;> omega
    · simp [List.filter_cons, List.count_cons, not_le.mpr h, not_lt.mpr (le_of_lt h),
        ne_of_gt h, (ne_of_gt h).symm, ih] <;> omega

/-- Closed form of the pandas-style percentile on a non-empty
population. -/
theorem le_mean_percentile_eq (v : ℚ) (pop : List ℚ) (h : pop ≠ []) :
    le_mean_percentile v pop =
      some (((pop.filter (fun x => x ≤ v)).length : ℚ) / pop.length * 100) := by
  have hl : (pop.map (fun x => if x ≤ v then (1 : ℚ) else 0)).length = pop.length := by simp
  rw [le_mean_percentile, series_mean, hl,
    if_neg (by simpa [List.length_eq_zero] using h)]
  simp [indicator_sum_eq]

/-- Closed form of the scipy rank-kind percentile on a non-empty
population. -/
theorem percentileofscore_eq (a : List ℚ) (score : ℚ) (h : a ≠ []) :
    percentileofscore a score =
      some ((((a.filter (fun x => x < score)).length : ℚ) +
        ((a.filter (fun x => x ≤ score)).length : ℚ) +
        (((if (a.filter (fun x => x < score)).length <
            (a.filter (fun x => x ≤ score)).length then (1 : ℕ) else 0) : ℕ) : ℚ)) * 50 /
        (a.length : ℚ)) := by
  rw [percentileofscore, if_neg (by simpa [List.length_eq_zero] using h)]

/-- Claim C5 (corrected claim): the two duplicated percentile
implementations agree (and equal 100 times the fraction of the population
that is ≤ value) whenever the value occurs at most once in the
population, and both return a strictly positive percentile whenever the
value occurs in the population (in particular at a duplicated minimum);
but for every population in which the value occurs more than once the
two implementations differ, because `stats.percentileofscore` defaults to
the rank kind, which averages the strict and weak counts instead of using
the weak count alone. -/
theorem C5_percentile (v : ℚ) (pop : List ℚ) (hne : pop ≠ []) :
    (pop.count v ≤ 1 → le_mean_percentile v pop = get_percentile v pop) ∧
    (2 ≤ pop.count v → le_mean_percentile v pop ≠ get_percentile v pop) ∧
    (v ∈ pop → ∃ qw qr, le_mean_percentile v pop = some qw ∧
      get_percentile v pop = some qr ∧ 0 < qw ∧ 0 < qr) := by
  have hn : (0 : ℚ) < pop.length := by exact_mod_cast List.length_pos.mpr hne
  have hn0 : (pop.length : ℚ) ≠ 0 := ne_of_gt hn
  have hsplit := filter_le_length_split v pop
  refine ⟨?_, ?_, ?_⟩
  · intro hc
    rw [le_mean_percentile_eq v pop hne, get_percentile, percentileofscore_eq pop v hne]
    rcases Nat.le_one_iff_eq_zero_or_eq_one.mp hc with hc0 | hc1
    · rw [hc0] at hsplit
      rw [hsplit]
      congr 1
      rw [if_neg (by omega)]
      push_cast
      field_simp
      ring
    · rw [hc1] at hsplit
      rw [hsplit]
      congr 1
      rw [if_pos (by omega)]
      push_cast
      field_simp
      ring
  · intro hc2
    rw [le_mean_percentile_eq v pop hne, get_percentile, percentileofscore_eq pop v hne]
    intro heq
    have heq2 := Option.some.inj heq
    have hlt : (pop.filter (fun x => x < v)).length <
        (pop.filter (fun x => x ≤ v)).length := by omega
    rw [if_pos hlt, hsplit] at heq2
    push_cast at heq2
    field_simp at heq2
    have hcq : (pop.count v : ℚ) = 1 := by linarith
    have hc1 : pop.count v = 1 := by exact_mod_cast hcq
    omega
  · intro hv
    rw [le_mean_percentile_eq v pop hne, get_percentile, percentileofscore_eq pop v hne]
    have hR : 0 < (pop.filter (fun x => x ≤ v)).length := by
      refine List.length_pos.mpr (fun hnil => ?_)
      have : v ∈ pop.filter (fun x => x ≤ v) := List.mem_filter.mpr ⟨hv, by simp⟩
      simp [hnil] at this
    have hRq : (0 : ℚ) < ((pop.filter (fun x => x ≤ v)).length : ℚ) := by exact_mod_cast hR
    have hLq : (0 : ℚ) ≤ ((pop.filter (fun x => x < v)).length : ℚ) := Nat.cast_nonneg _
    have hite : (0 : ℚ) ≤ (((if (pop.filter (fun x => x < v)).length <
        (pop.filter (fun x => x ≤ v)).length then (1 : ℕ) else 0) : ℕ) : ℚ) :=
      Nat.cast_nonneg _
    refine ⟨_, _, rfl, rfl, ?_, ?_⟩
    · exact mul_pos (div_pos hRq hn) (by norm_num)
    · exact div_pos (mul_pos (by linarith) (by norm_num)) hn

/-- Claim C5 counterexample: at value 3 and population [1,2,3,3,4] the
pandas implementation returns 80 while the scipy implementation (default
rank kind) returns 70, so the two duplicated implementations do not
compute the same function. -/
theorem C5_counterexample :
    le_mean_percentile 3 [1, 2, 3, 3, 4] = some 80 ∧
    get_percentile 3 [1, 2, 3, 3, 4] = some 70 ∧ (80 : ℚ) ≠ 70 := by
  refine ⟨?_, ?_, by norm_num⟩
  · norm_num [le_mean_percentile, series_mean]
  · norm_num [get_percentile, percentileofscore, List.filter_cons]

/-- Claim C5 witness: the amended theorem applied at value 1 and
population [1,1,2] (a duplicated minimum). -/
theorem C5_witness :
    (([1, 1, 2] : List ℚ) ≠ [] ∧ (1 : ℚ) ∈ ([1, 1, 2] : List ℚ) ∧
      2 ≤ ([1, 1, 2] : List ℚ).count 1) ∧
    le_mean_percentile 1 [1, 1, 2] ≠ get_percentile 1 [1, 1, 2] ∧
    (∃ qw qr, le_mean_percentile 1 [1, 1, 2] = some qw ∧
      get_percentile 1 [1, 1, 2] = some qr ∧ 0 < qw ∧ 0 < qr) := by
  have hc : 2 ≤ ([1, 1, 2] : List ℚ).count 1 := by decide
  exact ⟨⟨by simp, by simp, hc⟩, (C5_percentile 1 [1, 1, 2] (by simp)).2.1 hc,
    (C5_percentile 1 [1, 1, 2] (by simp)).2.2 (by simp)⟩

/-- Label disequality used when evaluating the classifiers on concrete
populations. -/
theorem label_ne_ncnc_prob : ("Near-certain no conflict" : String) ≠ "Probable conflict" := by
  decide

/-- Label disequality between the two similarity markers. -/
theorem label_ne_most_generally : ("most similar" : String) ≠ "generally similar" := by
  decide

/-- Members of the natural cohort are population members distinct from
the query unit. -/
theorem mem_natural_cohort (md : List FUnit) (u : FUnit) (c : ℕ)
    (hc : c ∈ natural_cohort md u) : c ≠ u.isoab ∧ c ∈ md.map FUnit.isoab := by
  have h1 : c ∈ (get_cohort_countries md (categorize_probability u.outcome_p)
      (categorize_intensity u.predicted)).filter (fun c => c ≠ u.isoab) :=
    List.take_subset 3 _ hc
  have h2 := List.mem_filter.mp h1
  refine ⟨by simpa using h2.2, ?_⟩
  rw [get_cohort_countries] at h2
  rcases List.mem_map.mp h2.1 with ⟨v, hv, rfl⟩
  exact List.mem_map.mpr ⟨v, (List.filter_sublist md).subset hv, rfl⟩

/-- The executable cohort extractor is the relational one applied to the
concrete admissible sort run. -/
theorem extract_cohort_eq_from (md : List FUnit) (u : FUnit) :
    extract_cohort md u = extract_cohort_from md u (sorted_by_distance md u) := rfl

/-- Members of a filtered admissible pool are population members distinct
from the query unit and outside the natural cohort. -/
theorem mem_filtered_pool (md : List FUnit) (u : FUnit) (s : List (ℕ × FUnit))
    (hs : admissible_distance_sort md u s) (p : ℕ × FUnit)
    (hp : p ∈ s.filter (fun p => p.2.isoab ∉ natural_cohort md u)) :
    p.2.isoab ∉ natural_cohort md u ∧ p.2.isoab ≠ u.isoab ∧ p.2 ∈ md := by
  have h := List.mem_filter.mp hp
  have h3 : p ∈ all_countries md u := hs.1.mem_iff.mp h.1
  have h4 := List.mem_filter.mp h3
  refine ⟨by simpa using h.2, by simpa using h4.2, ?_⟩
  have h5 : p ∈ md.enum := h4.1
  rw [List.enum_eq_zip_range] at h5
  exact (List.of_mem_zip h5).2

/-- Claim C3 (corrected claim): for every admissible result of the
distance sort, the query unit never appears in the cohort, the result has
at most 3 members, the natural cohort is kept as a prefix, and when the
natural cohort is short the rest of the result is taken from the sorted
remaining pool — population rows other than the query unit and the
natural cohort, in ascending order of absolute intensity distance to the
query unit — until 3 members are reached or the pool is exhausted.  The
order among equidistant candidates is whatever the unstable sort
produced; population order is not guaranteed. -/
theorem C3_cohort_backfill_any_sort (md : List FUnit) (u : FUnit) (s : List (ℕ × FUnit))
    (hs : admissible_distance_sort md u s) :
    u.isoab ∉ (extract_cohort_from md u s).1 ∧
    (extract_cohort_from md u s).1.length ≤ 3 ∧
    (extract_cohort_from md u s).1.take (natural_cohort md u).length =
      natural_cohort md u ∧
    ((natural_cohort md u).length < 3 →
      (extract_cohort_from md u s).1.drop (natural_cohort md u).length =
        ((s.filter (fun p => p.2.isoab ∉ natural_cohort md u)).map
          (fun p => p.2.isoab)).take (3 - (natural_cohort md u).length) ∧
      (extract_cohort_from md u s).1.length =
        min 3 ((natural_cohort md u).length +
          (s.filter (fun p => p.2.isoab ∉ natural_cohort md u)).length) ∧
      (s.filter (fun p => p.2.isoab ∉ natural_cohort md u)).Pairwise (fun a b =>
        |a.2.predicted - u.predicted| ≤ |b.2.predicted - u.predicted|) ∧
      (s.filter (fun p => p.2.isoab ∉ natural_cohort md u)).Perm
        ((all_countries md u).filter (fun p => p.2.isoab ∉ natural_cohort md u)) ∧
      (∀ c ∈ (extract_cohort_from md u s).1.drop (natural_cohort md u).length,
        c ∉ natural_cohort md u ∧ c ≠ u.isoab ∧ c ∈ md.map FUnit.isoab)) := by
  by_cases hlen : (natural_cohort md u).length < 3
  · have hres : (extract_cohort_from md u s).1 = natural_cohort md u ++
        ((s.filter (fun p => p.2.isoab ∉ natural_cohort md u)).map
          (fun p => p.2.isoab)).take (3 - (natural_cohort md u).length) := by
      simp [extract_cohort_from, hlen]
    have hfb : ∀ c ∈ ((s.filter (fun p => p.2.isoab ∉ natural_cohort md u)).map
        (fun p => p.2.isoab)).take (3 - (natural_cohort md u).length),
        c ∉ natural_cohort md u ∧ c ≠ u.isoab ∧ c ∈ md.map FUnit.isoab := by
      intro c hc
      rcases List.mem_map.mp (List.take_subset _ _ hc) with ⟨p, hpmem, rfl⟩
      obtain ⟨hn, hneq, hmem⟩ := mem_filtered_pool md u s hs p hpmem
      exact ⟨hn, hneq, List.mem_map.mpr ⟨p.2, hmem, rfl⟩⟩
    refine ⟨?_, ?_, ?_, fun _ => ⟨?_, ?_, ?_, ?_, ?_⟩⟩
    · rw [hres]
      intro hmem
      rcases List.mem_append.mp hmem with hm | hm
      · exact (mem_natural_cohort md u _ hm).1 rfl
      · exact (hfb _ hm).2.1 rfl
    · rw [hres, List.length_append, List.length_take]
      omega
    · rw [hres, List.take_left]
    · rw [hres, List.drop_left]
    · rw [hres, List.length_append, List.length_take, List.length_map]
      omega
    · exact List.Pairwise.filter _ hs.2
    · exact List.Perm.filter _ hs.1
    · rw [hres, List.drop_left]
      exact hfb
  · have hres : (extract_cohort_from md u s).1 = natural_cohort md u := by
      simp [extract_cohort_from, hlen]
    refine ⟨?_, ?_, ?_, fun h => absurd h hlen⟩
    · rw [hres]
      intro hmem
      exact (mem_natural_cohort md u _ hmem).1 rfl
    · rw [hres, natural_cohort]
      exact List.length_take_le 3 _
    · rw [hres, List.take_length]

/-- Claim C2 (corrected claim): when the natural cohort has at least 3
members the result is exactly the first 3 natural members and is labelled
"most similar" with no backfill; but the "generally similar" fallback
label is used exactly when the natural cohort is empty, so a result that
mixes 1 or 2 natural members with backfill members is still labelled
"most similar". -/
theorem C2_match_mode (md : List FUnit) (u : FUnit) :
    (3 ≤ (natural_cohort md u).length →
      similarity_label md u = "most similar" ∧
      cohort_result md u = natural_cohort md u) ∧
    (similarity_label md u = "generally similar" ↔ natural_cohort md u = []) := by
  constructor
  · intro h3
    have hn : ¬ (natural_cohort md u).length < 3 := by omega
    exact ⟨by simp [similarity_label, extract_cohort, hn],
      by simp [cohort_result, extract_cohort, hn]⟩
  · by_cases hlen : (natural_cohort md u).length < 3
    · by_cases hemp : (natural_cohort md u).isEmpty
      · simp [similarity_label, extract_cohort, hlen, hemp,
          List.isEmpty_iff.mp hemp]
      · have : natural_cohort md u ≠ [] := by
          simpa [List.isEmpty_iff] using hemp
        simp [similarity_label, extract_cohort, hlen, hemp, this,
          label_ne_most_generally]
    · have : natural_cohort md u ≠ [] := by
        intro h
        rw [h] at hlen
        simp at hlen
      simp [similarity_label, extract_cohort, hlen, this, label_ne_most_generally]

/-- Claim C2 counterexample: in `mdOneNatural` the natural cohort of the
query unit is just [1], so members 2 and 3 of the result are backfill,
yet the label is "most similar", not the fallback label. -/
theorem C2_counterexample :
    natural_cohort mdOneNatural uQuery = [1] ∧
    cohort_result mdOneNatural uQuery = [1, 2, 3] ∧
    similarity_label mdOneNatural uQuery = "most similar" ∧
    (2 : ℕ) ∉ natural_cohort mdOneNatural uQuery ∧
    ("most similar" : String) ≠ "generally similar" := by
  have hnat : natural_cohort mdOneNatural uQuery = [1] := by
    norm_num [natural_cohort, get_cohort_countries, mdOneNatural, uQuery,
      categorize_probability, categorize_intensity, List.filter_cons, label_ne_ncnc_prob]
  have hex : extract_cohort mdOneNatural uQuery = ([1, 2, 3], "most similar") := by
    norm_num [extract_cohort, natural_cohort, get_cohort_countries, remaining_after_cohort,
      sorted_by_distance, all_countries, mdOneNatural, uQuery,
      categorize_probability, categorize_intensity, List.filter_cons, label_ne_ncnc_prob,
      List.insertionSort, List.orderedInsert, List.enum, List.enumFrom]
  refine ⟨hnat, ?_, ?_, by simp [hnat], label_ne_most_generally⟩
  · rw [cohort_result, hex]
  · rw [similarity_label, hex]

/-- Claim C2 witness: the amended theorem applied to `mdManyNatural`,
where the natural cohort has 3 members. -/
theorem C2_witness :
    3 ≤ (natural_cohort mdManyNatural uQuery).length ∧
    similarity_label mdManyNatural uQuery = "most similar" ∧
    cohort_result mdManyNatural uQuery = natural_cohort mdManyNatural uQuery := by
  have h3 : 3 ≤ (natural_cohort mdManyNatural uQuery).length := by
    norm_num [natural_cohort, get_cohort_countries, mdManyNatural, uQuery,
      categorize_probability, categorize_intensity, List.filter_cons]
  have h := (C2_match_mode mdManyNatural uQuery).1 h3
  exact ⟨h3, h.1, h.2⟩

/-- Claim C3 counterexample: candidates 2 and 3 of `mdOneNatural` are
equidistant from the query unit (both at distance 4) and stand in
population order 2, 3; `sBad` is an admissible result of the unstable
distance sort in which they stand as 3, 2, and the backfill then
produces the cohort [1, 3, 2] — not the [1, 2, 3] that tie-breaking by
population order would dictate.  The tie-break clause of the claim is
therefore not a property of the code. -/
theorem C3_counterexample :
    admissible_distance_sort mdOneNatural uQuery sBad ∧
    all_countries mdOneNatural uQuery =
      [(1, ⟨1, 0.7, 8⟩), (2, ⟨2, 0.005, 1⟩), (3, ⟨3, 0.005, 9⟩)] ∧
    |(1 : ℚ) - 5| = |(9 : ℚ) - 5| ∧
    (extract_cohort_from mdOneNatural uQuery sBad).1 = [1, 3, 2] ∧
    ([1, 3, 2] : List ℕ) ≠ [1, 2, 3] := by
  have hall : all_countries mdOneNatural uQuery =
      [(1, ⟨1, 0.7, 8⟩), (2, ⟨2, 0.005, 1⟩), (3, ⟨3, 0.005, 9⟩)] := rfl
  refine ⟨⟨?_, ?_⟩, hall, by norm_num, ?_, by decide⟩
  · rw [hall]
    simp only [sBad]
    exact List.Perm.cons _ (List.Perm.swap _ _ _)
  · norm_num [sBad, uQuery, List.pairwise_cons]
  · norm_num [extract_cohort_from, natural_cohort, get_cohort_countries, mdOneNatural,
      uQuery, sBad, categorize_probability, categorize_intensity, List.filter_cons,
      label_ne_ncnc_prob]

/-- Claim C3 witness: the backfill theorem applied to `mdOneNatural` with
the admissible sort result that lists the pool in population order
(natural cohort of size 1, two backfill slots). -/
theorem C3_witness :
    (admissible_distance_sort mdOneNatural uQuery
        [(1, ⟨1, 0.7, 8⟩), (2, ⟨2, 0.005, 1⟩), (3, ⟨3, 0.005, 9⟩)] ∧
      (natural_cohort mdOneNatural uQuery).length < 3) ∧
    uQuery.isoab ∉ (extract_cohort_from mdOneNatural uQuery
        [(1, ⟨1, 0.7, 8⟩), (2, ⟨2, 0.005, 1⟩), (3, ⟨3, 0.005, 9⟩)]).1 ∧
    (extract_cohort_from mdOneNatural uQuery
      [(1, ⟨1, 0.7, 8⟩), (2, ⟨2, 0.005, 1⟩), (3, ⟨3, 0.005, 9⟩)]).1.length =
      min 3 ((natural_cohort mdOneNatural uQuery).length +
        (([(1, ⟨1, 0.7, 8⟩), (2, ⟨2, 0.005, 1⟩),
            (3, ⟨3, 0.005, 9⟩)] : List (ℕ × FUnit)).filter
          (fun p => p.2.isoab ∉ natural_cohort mdOneNatural uQuery)).length) ∧
    (extract_cohort_from mdOneNatural uQuery
        [(1, ⟨1, 0.7, 8⟩), (2, ⟨2, 0.005, 1⟩), (3, ⟨3, 0.005, 9⟩)]).1 = [1, 2, 3] := by
  have hall : all_countries mdOneNatural uQuery =
      [(1, ⟨1, 0.7, 8⟩), (2, ⟨2, 0.005, 1⟩), (3, ⟨3, 0.005, 9⟩)] := rfl
  have hs : admissible_distance_sort mdOneNatural uQuery
      [(1, ⟨1, 0.7, 8⟩), (2, ⟨2, 0.005, 1⟩), (3, ⟨3, 0.005, 9⟩)] := by
    constructor
    · rw [hall]
    · norm_num [uQuery, List.pairwise_cons]
  have hlen : (natural_cohort mdOneNatural uQuery).length < 3 := by
    norm_num [natural_cohort, get_cohort_countries, mdOneNatural, uQuery,
      categorize_probability, categorize_intensity, List.filter_cons, label_ne_ncnc_prob]
  have h := C3_cohort_backfill_any_sort mdOneNatural uQuery _ hs
  refine ⟨⟨hs, hlen⟩, h.1, (h.2.2.2 hlen).2.1, ?_⟩
  norm_num [extract_cohort_from, natural_cohort, get_cohort_countries, mdOneNatural,
    uQuery, categorize_probability, categorize_intensity, List.filter_cons,
    label_ne_ncnc_prob]

/-- When some element of the list satisfies the predicate, `findIdx?`
returns an in-range index offset by the start value. -/
theorem findIdx?_some_of_exists {α : Type} (p : α → Bool) :
    ∀ (l : List α) (s : ℕ), (∃ x ∈ l, p x) →
      ∃ j, List.findIdx? p l s = some (s + j) ∧ j < l.length := by
  intro l
  induction l with
  | nil =>
    intro s h
    simp at h
  | cons a t ih =>
    intro s h
    by_cases hpa : p a
    · exact ⟨0, by simp [List.findIdx?, hpa], by simp⟩
    · have h2 : ∃ x ∈ t, p x := by
        rcases h with ⟨x, hx, hpx⟩
        rcases List.mem_cons.mp hx with rfl | hxt
        · exact absurd hpx (by simp [hpa])
        · exact ⟨x, hxt, hpx⟩
      rcases ih (s + 1) h2 with ⟨j, hj, hlt⟩
      refine ⟨j + 1, ?_, by simp; omega⟩
      have hstep : List.findIdx? p (a :: t) s = List.findIdx? p t (s + 1) := by
        simp [List.findIdx?, hpa]
      rw [hstep, hj]
      congr 1
      omega

/-- Claim C4 (corrected claim): for every unit found in its partition,
`rank_within` sorts the partition by value descending and returns a
1-based rank with `rank + lower = total` and `higher = rank - 1`; the
identity `higher + rank = total` claimed by the spec does not hold in
general (it holds in the 5-unit example only because there rank = 3 and
total = 5 = 2·3 - 1). -/
theorem C4_rank_within (grids : List (ℤ × ℚ)) (gid : ℤ)
    (hmem : gid ∈ grids.map Prod.fst) :
    1 ≤ (rank_within grids gid).1 ∧
    (rank_within grids gid).1 ≤ (rank_within grids gid).2.1 ∧
    (rank_within grids gid).1 + (rank_within grids gid).2.2.2 =
      (rank_within grids gid).2.1 ∧
    (rank_within grids gid).2.2.1 = (rank_within grids gid).1 - 1 ∧
    (rank_sorted grids).Pairwise (fun a b => b.2 ≤ a.2) ∧
    (rank_sorted grids).Perm grids := by
  have hperm : (rank_sorted grids).Perm grids := List.perm_insertionSort _ _
  have hsorted : (rank_sorted grids).Pairwise (fun a b => b.2 ≤ a.2) :=
    List.sorted_insertionSort _ _
  have hne : ¬ grids.isEmpty = true := by
    cases grids with
    | nil => simp at hmem
    | cons a t => simp
  rcases List.mem_map.mp hmem with ⟨x, hx, hx1⟩
  have hxs : ∃ y ∈ rank_sorted grids, (fun p => decide (p.1 = gid)) y = true := by
    refine ⟨x, hperm.mem_iff.mpr hx, by simp [hx1]⟩
  rcases findIdx?_some_of_exists _ (rank_sorted grids) 0 hxs with ⟨j, hj, hjlt⟩
  have hjg : j < grids.length := by
    have := hperm.length_eq
    omega
  have hr : rank_within grids gid =
      ((j : ℤ) + 1, (grids.length : ℤ), (j : ℤ) + 1 - 1,
        (grids.length : ℤ) - ((j : ℤ) + 1)) := by
    rw [rank_within, if_neg hne]
    rw [rank_sorted] at hj
    simp only [Nat.zero_add] at hj
    simp [hj]
  rw [hr]
  dsimp only
  refine ⟨by omega, ?_, by ring, rfl, hsorted, hperm⟩
  have : (j : ℤ) < (grids.length : ℤ) := by exact_mod_cast hjg
  omega

/-- Claim C4 counterexample: in the 2-unit partition `rankPair` the unit
with the highest value gets rank 1, higher 0, lower 1, total 2, and
higher + rank = 1 ≠ 2 = total, refuting the claimed identity
`higher + rank = total`. -/
theorem C4_counterexample :
    rank_within rankPair 1 = (1, 2, 0, 1) ∧
    (rank_within rankPair 1).2.2.1 + (rank_within rankPair 1).1 ≠
      (rank_within rankPair 1).2.1 := by
  constructor <;> decide

/-- Claim C4 witness: the amended theorem applied to the 5-unit example
partition, where the unit with value 50 gets rank 3, higher 2, lower 2. -/
theorem C4_witness :
    ((3 : ℤ) ∈ rankExample.map Prod.fst) ∧
    rank_within rankExample 3 = (3, 5, 2, 2) ∧
    (rank_within rankExample 3).1 + (rank_within rankExample 3).2.2.2 =
      (rank_within rankExample 3).2.1 := by
  have hmem : (3 : ℤ) ∈ rankExample.map Prod.fst := by decide
  exact ⟨hmem, by decide, (C4_rank_within rankExample 3 hmem).2.2.1⟩

/-- Dict assignment never changes the key set except by adding an absent
key, so it preserves key uniqueness. -/
theorem dict_insert_keys_nodup (m : List (String × ℤ)) (k : String) (v : ℤ)
    (h : (m.map Prod.fst).Nodup) : ((dict_insert m k v).map Prod.fst).Nodup := by
  rw [dict_insert]
  split_ifs with hany
  · have hkeys : (m.map (fun e => if e.1 = k then (k, v) else e)).map Prod.fst =
        m.map Prod.fst := by
      rw [List.map_map]
      refine List.map_congr_left ?_
      intro e _
      by_cases he : e.1 = k
      · simp [he]
      · simp [he]
    rw [hkeys]
    exact h
  · have hk : k ∉ m.map Prod.fst := by
      intro hmem
      rcases List.mem_map.mp hmem with ⟨e, he, hek⟩
      exact hany (List.any_eq_true.mpr ⟨e, he, by simp [hek]⟩)
    rw [List.map_append]
    simp [List.nodup_append, h, hk]

/-- The neighbor fold of `generate_content` succeeds whenever every
neighbor gid resolves to a mesh row, and it keeps the dict keys
unique. -/
theorem foldlM_dict_nodup (gdf : List GridCell) (focal : GridCell) :
    ∀ (ngids : List ℤ) (init : List (String × ℤ)),
      (∀ n ∈ ngids, ∃ c, lookup_cell gdf n = some c) →
      (init.map Prod.fst).Nodup →
      ∃ m, (ngids.foldlM (fun m ngid =>
          match lookup_cell gdf ngid with
          | none => none
          | some ncell =>
            some (dict_insert m (get_geographic_position focal ncell) ngid)) init) =
        some m ∧ (m.map Prod.fst).Nodup := by
  intro ngids
  induction ngids with
  | nil =>
    intro init _ hnd
    exact ⟨init, rfl, hnd⟩
  | cons n t ih =>
    intro init hall hnd
    rcases hall n (by simp) with ⟨c, hc⟩
    rw [List.foldlM_cons, hc]
    exact ih _ (fun x hx => hall x (by simp [hx]))
      (dict_insert_keys_nodup init (get_geographic_position focal c) n hnd)

/-- Claim C8 (corrected claim): the adjacency build never reports a
topology-inconsistency error — the output dict has at most one entry per
compass label only because a later neighbor that maps to an
already-present label silently overwrites the earlier one, which is
dropped from the adjacency, and a neighbor with both coordinate deltas
zero is recorded under the empty label instead of being rejected. -/
theorem C8_no_error_overwrite (gdf : List GridCell) (touches : ℤ → ℤ → Bool) (gid : ℤ) :
    ∃ r, generate_content gdf touches gid = .ok r ∧
      ∀ m, r = some m → (m.map Prod.fst).Nodup := by
  by_cases h8 : (get_neighbors gdf touches gid).length ≠ 8
  · refine ⟨none, by rw [generate_content, if_pos h8], ?_⟩
    intro m hm
    cases hm
  · have hfo : ∃ focal, lookup_cell gdf gid = some focal := by
      rcases hlk : lookup_cell gdf gid with _ | focal
      · exfalso
        have hnil : get_neighbors gdf touches gid = [] := by
          rw [get_neighbors, hlk]
        rw [hnil] at h8
        simp at h8
      · exact ⟨focal, rfl⟩
    rcases hfo with ⟨focal, hfocal⟩
    have hng : ∀ n ∈ get_neighbors gdf touches gid, ∃ c, lookup_cell gdf n = some c := by
      intro n hn
      rw [get_neighbors, hfocal] at hn
      rcases List.mem_map.mp hn with ⟨c, hcmem, rfl⟩
      have hcg : c ∈ gdf := (List.filter_sublist gdf).subset hcmem
      have : (gdf.find? (fun x => x.gid = c.gid)).isSome := by
        rw [List.find?_isSome]
        exact ⟨c, hcg, by simp⟩
      rcases Option.isSome_iff_exists.mp this with ⟨x, hx⟩
      exact ⟨x, hx⟩
    rcases foldlM_dict_nodup gdf focal (get_neighbors gdf touches gid)
      [("CENTER", gid)] hng (by simp) with ⟨m, hm, hmnd⟩
    refine ⟨some m, ?_, ?_⟩
    · rw [generate_content, if_neg h8, hfocal]
      simp only [hm]
    · intro m2 hm2
      cases hm2
      exact hmnd

/-- Claim C8 counterexample: in `meshCollide` both gid 1 and gid 2 touch
the focal cell and lie due north of it, mapping to the same label "N";
the build returns a normal result (no error) in which gid 1 has been
silently overwritten by gid 2 and is absent from the adjacency, and a
neighbor with both coordinate deltas zero gets the empty label rather
than being rejected. -/
theorem C8_counterexample :
    generate_content meshCollide touchCollide 0 =
      .ok (some [("CENTER", 0), ("N", 2), ("NE", 3), ("E", 4), ("SE", 5), ("S", 6),
        ("SW", 7), ("W", 8)]) ∧
    (1 : ℤ) ∈ get_neighbors meshCollide touchCollide 0 ∧
    ([("CENTER", (0 : ℤ)), ("N", 2), ("NE", 3), ("E", 4), ("SE", 5), ("S", 6), ("SW", 7),
      ("W", 8)].map Prod.snd) = [0, 2, 3, 4, 5, 6, 7, 8] ∧
    (1 : ℤ) ∉ ([0, 2, 3, 4, 5, 6, 7, 8] : List ℤ) ∧
    get_geographic_position ⟨0, 0, 0⟩ ⟨9, 0, 0⟩ = "" := by
  refine ⟨by rfl, by decide, by decide, by decide, by rfl⟩

/-- Claim C8 witness: the amended theorem evaluated on the colliding
mesh, where the build returns the overwritten dict with unique keys and
no error. -/
theorem C8_witness :
    generate_content meshCollide touchCollide 0 =
      .ok (some [("CENTER", 0), ("N", 2), ("NE", 3), ("E", 4), ("SE", 5), ("S", 6),
        ("SW", 7), ("W", 8)]) ∧
    (([("CENTER", (0 : ℤ)), ("N", 2), ("NE", 3), ("E", 4), ("SE", 5), ("S", 6), ("SW", 7),
      ("W", 8)]).map Prod.fst).Nodup := by
  have hconc : generate_content meshCollide touchCollide 0 =
      .ok (some [("CENTER", 0), ("N", 2), ("NE", 3), ("E", 4), ("SE", 5), ("S", 6),
        ("SW", 7), ("W", 8)]) := by rfl
  obtain ⟨r, hr, hnd⟩ := C8_no_error_overwrite meshCollide touchCollide 0
  rw [hconc] at hr
  exact ⟨hconc, hnd _ (Except.ok.inj hr).symm⟩

/-- Claim C10: the spatial module emits adjacency output only for cells
with exactly 8 resolved neighbors — any other neighbor count (0 to 7
neighbors at boundaries, or more than 8) makes `generate_content` return
None before rendering anything — and a focal cell absent from the mesh
gives an empty neighbor list rather than an error. -/
theorem C10_interior_only (gdf : List GridCell) (touches : ℤ → ℤ → Bool) (gid : ℤ) :
    ((get_neighbors gdf touches gid).length ≠ 8 →
      generate_content gdf touches gid = .ok none) ∧
    (lookup_cell gdf gid = none → get_neighbors gdf touches gid = []) := by
  constructor
  · intro h
    rw [generate_content, if_pos h]
  · intro h
    rw [get_neighbors, h]

/-- Claim C10 witness: the theorem applied to a one-cell mesh (0
neighbors, so no output) and to a gid absent from that mesh (empty
neighbor list). -/
theorem C10_witness :
    ((get_neighbors meshSingle touchCollide 0).length ≠ 8 ∧
      generate_content meshSingle touchCollide 0 = .ok none) ∧
    (lookup_cell meshSingle 99 = none ∧
      get_neighbors meshSingle touchCollide 99 = []) := by
  exact ⟨⟨by decide, (C10_interior_only meshSingle touchCollide 0).1 (by decide)⟩,
    ⟨by rfl, (C10_interior_only meshSingle touchCollide 99).2 (by rfl)⟩⟩
